import Mathlib

/-!
Verification of the perception-to-action decision core of the
`fruit-ninja-bot` repository: a shallow embedding of the Targeting Engine
(`real_bot.py`), the Track Manager and Trajectory Predictor
(`src/vision/fruit_tracker.py`), together with proofs and refutations of
the specified properties.

Positions and times are modelled as rationals (Python numbers are embedded
exactly; wall-clock timestamps become explicit rational parameters).
Euclidean distance, which the source computes with `math.sqrt`, lands in
`ℝ` via `Real.sqrt`; every comparison and branch that the source performs
on exact pixel arithmetic stays in `ℚ` and is decidable.
-/

namespace FruitNinja

/-- A 2-D pixel position `(x, y)`; the y-axis points downward (screen coordinates). -/
abbrev Point : Type := ℚ × ℚ

/-- Squared Euclidean distance between two points (the radicand of
`math.sqrt((fx-bx)**2 + (fy-by)**2)` in `real_bot.py`). -/
def dist2 (p q : Point) : ℚ :=
  (p.1 - q.1) ^ 2 + (p.2 - q.2) ^ 2

/-- Euclidean distance, `real_bot.py` line 64 / `fruit_tracker.py`
`_calculate_distance`. -/
noncomputable def distance (p q : Point) : ℝ :=
  Real.sqrt ((dist2 p q : ℚ) : ℝ)

/-- `calculate_safety_score`, lines 70-71: the bomb sits in the horizontal
swipe corridor (`horizontal_distance < 60 and vertical_difference < 25`). -/
def scoreCorridorHit (fruit bomb : Point) : Prop :=
  |fruit.1 - bomb.1| < 60 ∧ |fruit.2 - bomb.2| < 25

instance (fruit bomb : Point) : Decidable (scoreCorridorHit fruit bomb) := by
  unfold scoreCorridorHit; infer_instance

/-- The normalized distance-based safety contribution of one bomb,
`min(1.0, distance / 100.0)` (`real_bot.py` line 74). -/
noncomputable def distance_safety (fruit bomb : Point) : ℝ :=
  min 1 (distance fruit bomb / 100)

/-- The loop of `calculate_safety_score` (lines 62-75): iterate over the
bombs, returning `0.0` as soon as a bomb hits the corridor, otherwise
folding the running minimum of the normalized distance scores. -/
noncomputable def safetyLoop (fruit : Point) : List Point → ℝ → ℝ
  | [], acc => acc
  | bomb :: rest, acc =>
      if scoreCorridorHit fruit bomb then 0
      else safetyLoop fruit rest (min acc (distance_safety fruit bomb))

/-- `FruitNinjaBot.calculate_safety_score` (`real_bot.py` lines 54-77). -/
noncomputable def calculate_safety_score (fruit : Point) (bombs : List Point) : ℝ :=
  if bombs = [] then 1 else safetyLoop fruit bombs 1

/-- `is_swipe_safe`, line 90: the bomb obstructs the horizontal swipe path
(`horizontal_distance < 70 and vertical_difference < 30`). -/
def pathCorridorHit (fruit bomb : Point) : Prop :=
  |fruit.1 - bomb.1| < 70 ∧ |fruit.2 - bomb.2| < 30

instance (fruit bomb : Point) : Decidable (pathCorridorHit fruit bomb) := by
  unfold pathCorridorHit; infer_instance

/-- `FruitNinjaBot.is_swipe_safe` (`real_bot.py` lines 79-93): `False` as
soon as some bomb lies in the swipe path, `True` otherwise. -/
def is_swipe_safe (fruit : Point) (bombs : List Point) : Bool :=
  bombs.all (fun bomb => !(decide (pathCorridorHit fruit bomb)))

/-- A history sample `(timestamp, x, y)` as stored in the tracker's deques. -/
abbrev Sample : Type := ℚ × ℚ × ℚ

/-- Motion phase returned by `_calculate_trajectory_parameters`
(the strings `"ascending"`, `"hover"`, `"descending"`, `"unknown"`). -/
inductive Phase where
  | ascending
  | hover
  | descending
  | unknown
deriving DecidableEq, Repr

/-- `FruitTracker.gravity = 9.8 * 50` (`fruit_tracker.py` line 20). -/
def gravity : ℚ := 49 / 5 * 50

/-- Python `int(...)` applied to a rational: truncation toward zero. -/
def intTrunc (q : ℚ) : ℤ :=
  if 0 ≤ q then ⌊q⌋ else ⌈q⌉

/-- `FruitTracker._calculate_trajectory_parameters` (`fruit_tracker.py`
lines 78-125) as a function of the track's history (oldest first).
Returns `(phase, velocity_x, velocity_y, acceleration_y)`. -/
def calcTraj (history : List Sample) : Phase × ℚ × ℚ × ℚ :=
  match history.reverse with
  | (t1, x1, y1) :: (t2, x2, y2) :: rest =>
      let dt := t1 - t2
      if dt ≤ 0 then (.unknown, 0, 0, 0)
      else
        let vx := (x1 - x2) / dt
        let vy := (y1 - y2) / dt
        let ay :=
          match rest with
          | (t3, _, y3) :: _ =>
              let prevDt := t2 - t3
              if 0 < prevDt then (vy - (y2 - y3) / prevDt) / dt
              else -gravity
          | [] => -gravity
        if vy < -5 ∧ ay < 0 then (.ascending, vx, vy, ay)
        else if |vy| < 15 then (.hover, vx, vy, ay)
        else if 5 < vy then (.descending, vx, vy, ay)
        else (.unknown, vx, vy, ay)
  | _ => (.unknown, 0, 0, 0)

/-- The extrapolation of `FruitTracker.update` (lines 148-158):
`x' = x + vx·t`, `y' = y + vy·t + ½·a·t²`, each component truncated by
Python's `int(...)`. The source fixes `t = 0.15`; the lookahead is kept as
a parameter here so that the contract can be stated for any lookahead. -/
def predictPos (x y vx vy ay t : ℚ) : ℚ × ℚ :=
  ((intTrunc (x + vx * t) : ℤ), (intTrunc (y + vy * t + 1 / 2 * ay * t ^ 2) : ℤ))

/-- Append to a bounded deque (`collections.deque(maxlen=max_history)`):
push at the right, evicting from the left beyond the capacity. -/
def pushSample (maxHistory : ℕ) (h : List Sample) (s : Sample) : List Sample :=
  let h' := h ++ [s]
  if maxHistory < h'.length then h'.drop (h'.length - maxHistory) else h'

/-- First index of the minimum of a list together with that minimum —
`np.argmin` plus the value at it (`fruit_tracker.py` lines 61-62).
Ties resolve to the earliest index, as `np.argmin` does. -/
def argminAux {α : Type _} [LinearOrder α] : List α → Option (ℕ × α)
  | [] => none
  | a :: rest =>
      match argminAux rest with
      | none => some (0, a)
      | some (j, v) => if a ≤ v then some (0, a) else some (j + 1, v)

/-- One row of the cost matrix (`fruit_tracker.py` lines 42-49): the
distances from a track's last recorded position to every current fruit.
A track with an empty history leaves its `np.zeros` row untouched. -/
noncomputable def costRow (h : List Sample) (fruits : List Point) : List ℝ :=
  match h.getLast? with
  | some (_, x, y) => fruits.map (fun c => distance (x, y) c)
  | none => fruits.map (fun _ => 0)

/-- The matching loop of `_assign_track_ids` (lines 55-67): every track,
in table order, takes the fruit at the first-minimal entry of its cost row
whenever that distance is below the 50-pixel threshold. The result pairs
each matched track id with the index of the fruit it consumed. -/
noncomputable def assignMatches (hist : List (ℕ × List Sample)) (fruits : List Point) :
    List (ℕ × ℕ) :=
  hist.filterMap fun th =>
    match argminAux (costRow th.2 fruits) with
    | some (j, v) => if v < 50 then some (th.1, j) else none
    | none => none

/-- The new-track loop of `_assign_track_ids` (lines 69-74): hand out
consecutive fresh ids to the given fruit indices. -/
def freshPairs (nextId : ℕ) : List ℕ → List (ℕ × ℕ)
  | [] => []
  | j :: rest => (nextId, j) :: freshPairs (nextId + 1) rest

/-- `FruitTracker._assign_track_ids` (`fruit_tracker.py` lines 27-76).
Returns the matched `(track_id, fruit_index)` pairs, the freshly spawned
`(new_id, fruit_index)` pairs, and the updated `next_track_id`. -/
noncomputable def assignTrackIds (hist : List (ℕ × List Sample)) (nextId : ℕ)
    (fruits : List Point) : List (ℕ × ℕ) × List (ℕ × ℕ) × ℕ :=
  if hist = [] then
    ([], freshPairs nextId (List.range fruits.length), nextId + fruits.length)
  else if fruits = [] then
    ([], [], nextId)
  else
    let matched := assignMatches hist fruits
    let used := matched.map Prod.snd
    let newIdx := (List.range fruits.length).filter (fun j => j ∉ used)
    (matched, freshPairs nextId newIdx, nextId + newIdx.length)

/-- Mutable state of `FruitTracker`: the history table (in dict insertion
order) and the next fresh track id. -/
structure TrackerState where
  fruit_history : List (ℕ × List Sample)
  next_track_id : ℕ
  max_history : ℕ
deriving Repr

/-- Look up a track's history in the table. -/
def lookupHist (hist : List (ℕ × List Sample)) (tid : ℕ) : Option (List Sample) :=
  (hist.find? (fun p => p.1 = tid)).map Prod.snd

/-- Insert the sample into the given track's deque, creating the deque at
the end of the table if the track is new (`fruit_tracker.py` lines 139-142). -/
def histPush (maxH : ℕ) (hist : List (ℕ × List Sample)) (tid : ℕ) (s : Sample) :
    List (ℕ × List Sample) :=
  if hist.any (fun p => p.1 = tid) then
    hist.map (fun p => if p.1 = tid then (p.1, pushSample maxH p.2 s) else p)
  else hist ++ [(tid, [s])]

/-- A fruit as decorated by `FruitTracker.update`. -/
structure TrackedFruit where
  center : Point
  track_id : ℕ
  phase : Phase
  predicted_pos : Point
  velocity : ℚ × ℚ
deriving Repr

/-- The per-fruit body of `FruitTracker.update` (lines 137-167): push the
new sample, then annotate the fruit with phase, 150 ms prediction and
velocity when at least two samples exist. -/
def updateLoop (maxH : ℕ) (fruits : List Point) (now : ℚ) :
    List (ℕ × ℕ) → List (ℕ × List Sample) → List TrackedFruit × List (ℕ × List Sample)
  | [], hist => ([], hist)
  | (tid, j) :: rest, hist =>
      match fruits.get? j with
      | none => updateLoop maxH fruits now rest hist
      | some c =>
          let hist' := histPush maxH hist tid (now, c.1, c.2)
          let h := (lookupHist hist' tid).getD []
          let out :=
            if 2 ≤ h.length then
              let r := calcTraj h
              { center := c, track_id := tid, phase := r.1,
                predicted_pos := predictPos c.1 c.2 r.2.1 r.2.2.1 r.2.2.2 (3 / 20),
                velocity := (r.2.1, r.2.2.1) }
            else
              { center := c, track_id := tid, phase := .unknown,
                predicted_pos := c, velocity := (0, 0) }
          let r := updateLoop maxH fruits now rest hist'
          (out :: r.1, r.2)

/-- Expiry test of `_clean_old_tracks` (line 178):
`history and current_time - history[-1][0] > 1.0`. -/
def staleTrack (h : List Sample) (now : ℚ) : Bool :=
  match h.getLast? with
  | some s => decide (1 < now - s.1)
  | none => false

/-- `FruitTracker._clean_old_tracks` (`fruit_tracker.py` lines 174-182). -/
def cleanOldTracks (hist : List (ℕ × List Sample)) (now : ℚ) : List (ℕ × List Sample) :=
  hist.filter (fun p => ! staleTrack p.2 now)

/-- `FruitTracker.update` (`fruit_tracker.py` lines 127-172): associate,
push histories and annotate in assignment order, then sweep expired
tracks. -/
noncomputable def trackerUpdate (s : TrackerState) (fruits : List Point) (now : ℚ) :
    List TrackedFruit × TrackerState :=
  let a := assignTrackIds s.fruit_history s.next_track_id fruits
  let r := updateLoop s.max_history fruits now (a.1 ++ a.2.1) s.fruit_history
  (r.1, { fruit_history := cleanOldTracks r.2 now,
          next_track_id := a.2.2, max_history := s.max_history })

/-- `CAPTURE_REGION = (913, 171, 1885, 979)` (`config.py` line 9). -/
def CAPTURE_REGION : ℚ × ℚ × ℚ × ℚ := (913, 171, 1885, 979)

/-- `self.frame_height = CAPTURE_REGION[3] - CAPTURE_REGION[1]` (`real_bot.py` line 41). -/
def frame_height : ℚ := CAPTURE_REGION.2.2.2 - CAPTURE_REGION.2.1

/-- `self.frame_width = CAPTURE_REGION[2] - CAPTURE_REGION[0]` (`real_bot.py` line 42). -/
def frame_width : ℚ := CAPTURE_REGION.2.2.1 - CAPTURE_REGION.1

/-- `self.cooldown = 0.1` (`real_bot.py` line 33): the minimum action interval. -/
def cooldown : ℚ := 1 / 10

/-- `self.swipe_length = 60` (`real_bot.py` line 31). -/
def swipe_length : ℚ := 60

/-- `self.swipe_duration = 0.020` (`real_bot.py` line 32). -/
def swipe_duration : ℚ := 1 / 50

/-- A fruit as the Targeting Engine consumes it: a (predicted) center and
a confidence (`fruit.get("confidence", 1.0)`). -/
structure TFruit where
  center : Point
  confidence : ℚ
deriving DecidableEq, Repr

/-- The candidate loop of `find_best_swipe_target` (`real_bot.py` lines
153-175): height-window filter, safety-score threshold, path-safety
check, then keep the strictly best composite score. -/
noncomputable def findLoop (bombs : List Point) :
    List TFruit → Option TFruit → ℝ → Option TFruit × ℝ
  | [], best, bestScore => (best, bestScore)
  | f :: rest, best, bestScore =>
      let hp := f.center.2 / frame_height
      if ¬(2 / 5 ≤ hp ∧ hp ≤ 7 / 10) then findLoop bombs rest best bestScore
      else
        let safety := calculate_safety_score f.center bombs
        if safety < 3 / 5 then findLoop bombs rest best bestScore
        else if is_swipe_safe f.center bombs = true then
          let score := safety * (f.confidence : ℝ) * (((1 - |hp - 11 / 20| : ℚ)) : ℝ)
          if bestScore < score then findLoop bombs rest (some f) score
          else findLoop bombs rest best bestScore
        else findLoop bombs rest best bestScore

/-- `FruitNinjaBot.find_best_swipe_target` (`real_bot.py` lines 143-177):
the cooldown/empty gate (line 147) returns `(None, 0.0)` before any
candidate is evaluated; otherwise the loop runs with `best_score = -1`. -/
noncomputable def find_best_swipe_target (fruits : List TFruit) (bombs : List Point)
    (current_time last_swipe_time : ℚ) : Option TFruit × ℝ :=
  if fruits = [] ∨ current_time - last_swipe_time < cooldown then (none, 0)
  else findLoop bombs fruits none (-1)

/-- `FruitNinjaBot.adjust_swipe_for_bombs` (`real_bot.py` lines 95-117). -/
def adjust_swipe_for_bombs (fx fy : ℚ) (bombs : List Point) : ℚ × ℚ :=
  let se := bombs.foldl
    (fun (se : ℚ × ℚ) b =>
      if |fy - b.2| < 30 then
        if b.1 < fx ∧ |b.1 - fx| < 80 then (max se.1 (b.1 + 25), se.2)
        else if fx < b.1 ∧ |b.1 - fx| < 80 then (se.1, min se.2 (b.1 - 25))
        else se
      else se)
    (fx - swipe_length, fx + swipe_length)
  if se.2 - se.1 < 40 then (fx - 40, fx + 40) else se

/-- The geometry part of `execute_swipe` (`real_bot.py` lines 200-210):
bomb-avoiding swipe extent clamped into the frame and shifted to absolute
screen coordinates. Returns `(abs_start_x, abs_end_x, abs_target_y)`. -/
def execute_swipe_geometry (fx fy : ℚ) (bombs : List Point) : ℚ × ℚ × ℚ :=
  let se := adjust_swipe_for_bombs fx fy bombs
  (CAPTURE_REGION.1 + max 0 (min se.1 frame_width),
   CAPTURE_REGION.1 + max 0 (min se.2 frame_width),
   CAPTURE_REGION.2.1 + max 0 (min fy frame_height))

/-- The pomegranate fingerprint table `self.potential_pomegranates`:
position fingerprint (`f"{x}_{y}"`, injectively the center itself) mapped
to `(first_seen_time, slice_count)`, in dict insertion order. -/
abbrev Pending : Type := List (Point × (ℚ × ℕ))

/-- Dictionary lookup in the fingerprint table. -/
def lookupPending (pending : Pending) (fp : Point) : Option (ℚ × ℕ) :=
  (pending.find? (fun e => e.1 = fp)).map Prod.snd

/-- `FruitNinjaBot.track_pomegranate_candidate` (`real_bot.py` lines
179-198): insert or bump the swiped fruit's fingerprint, then delete every
entry whose recorded time is more than 2 seconds old. -/
def trackPomCandidate (pending : Pending) (fp : Point) (current_time : ℚ) : Pending :=
  let p1 :=
    match lookupPending pending fp with
    | none => pending ++ [(fp, (current_time, 1))]
    | some fc =>
        pending.map (fun (e : Point × (ℚ × ℕ)) =>
          if e.1 = fp then (e.1, (fc.1, fc.2 + 1)) else e)
  p1.filter (fun (e : Point × (ℚ × ℕ)) => !(decide (2 < current_time - e.2.1)))

/-- The fruit loop of `check_pomegranate_behavior` (`real_bot.py` lines
126-141), run after the expiry check: the first fruit whose fingerprint
has persisted more than 1 second with at least 2 recorded slices returns
`True`, activating rapid mode for 3 seconds if it is not already active.
Returns `(returned_value, rapid_mode, rapid_mode_end_time)`. -/
def checkPomLoop (pending : Pending) (current_time : ℚ) :
    List Point → Bool → ℚ → Bool × Bool × ℚ
  | [], rapid, endTime => (rapid, rapid, endTime)
  | f :: rest, rapid, endTime =>
      match lookupPending pending f with
      | some fc =>
          if 1 < current_time - fc.1 ∧ 2 ≤ fc.2 then
            if rapid then (true, rapid, endTime)
            else (true, true, current_time + 3)
          else checkPomLoop pending current_time rest rapid endTime
      | none => checkPomLoop pending current_time rest rapid endTime

/-- `FruitNinjaBot.check_pomegranate_behavior` (`real_bot.py` lines
119-141): deactivate rapid mode once the current time passes its end
time, then scan the frame's fruits for pomegranate behavior. -/
def check_pomegranate_behavior (pending : Pending) (rapid : Bool) (endTime : ℚ)
    (fruits : List Point) (current_time : ℚ) : Bool × Bool × ℚ :=
  let r1 := if rapid ∧ endTime < current_time then false else rapid
  checkPomLoop pending current_time fruits r1 endTime

/-- The Targeting Engine's persistent state (`real_bot.py` lines 36-47). -/
structure BotState where
  last_swipe_time : ℚ
  potential_pomegranates : Pending
  rapid_mode : Bool
  rapid_mode_end_time : ℚ

/-- The per-frame output: no action, or one swipe with absolute geometry,
duration and mode flag. -/
inductive Action where
  | noAction
  | swipe (startX endX y duration : ℚ) (rapid : Bool)

/-- One frame of the decision loop of `FruitNinjaBot.run` (`real_bot.py`
lines 287-306) together with `execute_swipe`'s state effects (lines
200-230): check pomegranate behavior, gate and rank targets, and when a
target scores above `0.5` emit the shaped swipe, record
`last_swipe_time = current_time` and feed the fingerprint table. -/
noncomputable def botFrame (s : BotState) (fruits : List TFruit) (bombs : List Point)
    (current_time : ℚ) : Action × BotState :=
  let pc := check_pomegranate_behavior s.potential_pomegranates s.rapid_mode
    s.rapid_mode_end_time (fruits.map (fun f => f.center)) current_time
  let fb := find_best_swipe_target fruits bombs current_time s.last_swipe_time
  match fb.1 with
  | some target =>
      if 1 / 2 < fb.2 then
        let g := execute_swipe_geometry target.center.1 target.center.2 bombs
        (Action.swipe g.1 g.2.1 g.2.2 (swipe_duration * (if pc.1 then 4 / 5 else 1)) pc.1,
         { last_swipe_time := current_time,
           potential_pomegranates := trackPomCandidate s.potential_pomegranates
             target.center current_time,
           rapid_mode := pc.2.1, rapid_mode_end_time := pc.2.2 })
      else
        (Action.noAction,
         { s with rapid_mode := pc.2.1, rapid_mode_end_time := pc.2.2 })
  | none =>
      (Action.noAction,
       { s with rapid_mode := pc.2.1, rapid_mode_end_time := pc.2.2 })

/-- The per-frame inputs reaching the Targeting Engine. -/
structure FrameIn where
  fruits : List TFruit
  bombs : List Point
  t : ℚ

/-- The timestamps at which the engine emits `Swipe` actions while
consuming a sequence of frames from a given state. -/
noncomputable def runSwipeTimes (s : BotState) : List FrameIn → List ℚ
  | [] => []
  | fr :: rest =>
      let r := botFrame s fr.fruits fr.bombs fr.t
      match r.1 with
      | Action.noAction => runSwipeTimes r.2 rest
      | Action.swipe _ _ _ _ _ => fr.t :: runSwipeTimes r.2 rest

/-! ### Helper lemmas -/

lemma distance_nonneg (p q : Point) : 0 ≤ distance p q :=
  Real.sqrt_nonneg _

lemma distance_lt_iff (p q : Point) {c : ℚ} (hc : 0 < c) :
    distance p q < (c : ℝ) ↔ dist2 p q < c ^ 2 := by
  rw [distance, Real.sqrt_lt' (by exact_mod_cast hc)]
  constructor
  · intro h
    exact_mod_cast h
  · intro h
    exact_mod_cast h

lemma distance_safety_le_one (p q : Point) : distance_safety p q ≤ 1 :=
  min_le_left _ _

lemma safetyLoop_eq_zero (f : Point) (bombs : List Point)
    (h : ∃ b ∈ bombs, scoreCorridorHit f b) :
    ∀ acc : ℝ, safetyLoop f bombs acc = 0 := by
  induction bombs with
  | nil => simp at h
  | cons b rest ih =>
      intro acc
      rcases h with ⟨b', hb', hhit⟩
      rcases List.mem_cons.mp hb' with hb' | hb'
      · subst hb'; rw [safetyLoop, if_pos hhit]
      · rw [safetyLoop]
        split
        · rfl
        · exact ih ⟨b', hb', hhit⟩ _

lemma safetyLoop_min (f : Point) (bombs : List Point)
    (h : ∀ b ∈ bombs, ¬ scoreCorridorHit f b) :
    ∀ acc : ℝ,
      (∀ b ∈ bombs, safetyLoop f bombs acc ≤ distance_safety f b) ∧
      safetyLoop f bombs acc ≤ acc ∧
      (safetyLoop f bombs acc = acc ∨
        ∃ b ∈ bombs, safetyLoop f bombs acc = distance_safety f b) := by
  induction bombs with
  | nil =>
      intro acc
      refine ⟨by simp, le_of_eq rfl, Or.inl rfl⟩
  | cons b rest ih =>
      intro acc
      have hb : ¬ scoreCorridorHit f b := h b (List.mem_cons_self b rest)
      have hrest : ∀ b' ∈ rest, ¬ scoreCorridorHit f b' :=
        fun b' hb' => h b' (List.mem_cons_of_mem b hb')
      have hstep : safetyLoop f (b :: rest) acc
          = safetyLoop f rest (min acc (distance_safety f b)) := by
        rw [safetyLoop, if_neg hb]
      obtain ⟨ih1, ih2, ih3⟩ := ih hrest (min acc (distance_safety f b))
      refine ⟨?_, ?_, ?_⟩
      · intro b' hb'
        rcases List.mem_cons.mp hb' with rfl | hb'
        · rw [hstep]
          exact le_trans ih2 (min_le_right _ _)
        · rw [hstep]; exact ih1 b' hb'
      · rw [hstep]
        exact le_trans ih2 (min_le_left _ _)
      · rw [hstep]
        rcases ih3 with heq | ⟨b', hb', heq⟩
        · rcases min_cases acc (distance_safety f b) with ⟨hmin, _⟩ | ⟨hmin, _⟩
          · exact Or.inl (heq.trans hmin)
          · exact Or.inr ⟨b, List.mem_cons_self b rest, heq.trans hmin⟩
        · exact Or.inr ⟨b', List.mem_cons_of_mem b hb', heq⟩

/-! ### Claim C2 -/

/-- **C2.** The safety score is `1.0` with no hazards; it is exactly `0`
as soon as any hazard lies in the score corridor (horizontal distance
below 60, vertical difference below 25), regardless of straight-line
distance; otherwise, for a non-empty hazard list, it equals the minimum
over all hazards of the normalized distance score `min(1, distance/100)`
(it is a lower bound of those scores and attains one of them). -/
theorem C2_safety_score_characterization (f : Point) (bombs : List Point) :
    (bombs = [] → calculate_safety_score f bombs = 1) ∧
    ((∃ b ∈ bombs, scoreCorridorHit f b) → calculate_safety_score f bombs = 0) ∧
    ((∀ b ∈ bombs, ¬ scoreCorridorHit f b) → bombs ≠ [] →
      (∀ b ∈ bombs, calculate_safety_score f bombs ≤ distance_safety f b) ∧
      ∃ b ∈ bombs, calculate_safety_score f bombs = distance_safety f b) := by
  refine ⟨?_, ?_, ?_⟩
  · intro h; rw [calculate_safety_score, if_pos h]
  · intro h
    have hne : bombs ≠ [] := by
      rcases h with ⟨b, hb, _⟩
      exact List.ne_nil_of_mem hb
    rw [calculate_safety_score, if_neg hne]
    exact safetyLoop_eq_zero f bombs h 1
  · intro hnone hne
    rw [calculate_safety_score, if_neg hne]
    obtain ⟨h1, h2, h3⟩ := safetyLoop_min f bombs hnone 1
    refine ⟨h1, ?_⟩
    rcases h3 with heq | hex
    · rcases List.exists_mem_of_ne_nil bombs hne with ⟨b, hb⟩
      refine ⟨b, hb, le_antisymm ?_ ?_⟩
      · exact h1 b hb
      · rw [heq]; exact distance_safety_le_one f b
    · exact hex

/-- Witness for C2: with the single bomb `(10, 5)` in the corridor of a
fruit at the origin, the safety score evaluates to exactly `0`. -/
theorem C2_safety_score_characterization_witness :
    calculate_safety_score (0, 0) [(10, 5)] = 0 :=
  (C2_safety_score_characterization (0, 0) [(10, 5)]).2.1
    ⟨(10, 5), by simp, by constructor <;> norm_num [scoreCorridorHit]⟩

/-! ### Claim C10 -/

/-- **C10.** Whenever the corridor override of the scalar safety score
fires (some hazard within horizontal distance 60 and vertical difference
25 of the target), the score is forced to `0` and the independent
path-corridor check `is_swipe_safe` (tolerances 70 and 30) also rejects
the target: the score-zero corridor is contained in the path-rejection
corridor. -/
theorem C10_score_corridor_inside_path_corridor (f : Point) (bombs : List Point)
    (h : ∃ b ∈ bombs, scoreCorridorHit f b) :
    calculate_safety_score f bombs = 0 ∧ is_swipe_safe f bombs = false := by
  rcases h with ⟨b, hb, hhit⟩
  constructor
  · have hne : bombs ≠ [] := List.ne_nil_of_mem hb
    rw [calculate_safety_score, if_neg hne]
    exact safetyLoop_eq_zero f bombs ⟨b, hb, hhit⟩ 1
  · rw [is_swipe_safe]
    rw [List.all_eq_false]
    refine ⟨b, hb, ?_⟩
    have hpath : pathCorridorHit f b :=
      ⟨lt_trans hhit.1 (by norm_num), lt_trans hhit.2 (by norm_num)⟩
    simp [hpath]

/-- Witness for C10: a bomb exactly at the target's position. -/
theorem C10_score_corridor_inside_path_corridor_witness :
    calculate_safety_score (0, 0) [(0, 0)] = 0 ∧ is_swipe_safe (0, 0) [(0, 0)] = false :=
  C10_score_corridor_inside_path_corridor (0, 0) [(0, 0)]
    ⟨(0, 0), by simp, by constructor <;> norm_num [scoreCorridorHit]⟩

/-! ### Claim C8 -/

/-- Counterexample for C8 as stated: with a zero elapsed time between the
two most recent samples the computation short-circuits, but the returned
acceleration is `0`, not the assumed-gravity acceleration constant (which
is `-gravity = -490` where the source assumes it, lines 113 and 115). -/
theorem C8_counterexample :
    calcTraj [(0, 0, 0), (0, 5, 5)] = (Phase.unknown, 0, 0, 0) ∧
    (calcTraj [(0, 0, 0), (0, 5, 5)]).2.2.2 ≠ -gravity ∧
    (calcTraj [(0, 0, 0), (0, 5, 5)]).2.2.2 ≠ gravity := by
  have h : calcTraj [(0, 0, 0), (0, 5, 5)] = (Phase.unknown, 0, 0, 0) := by
    norm_num [calcTraj]
  refine ⟨h, ?_, ?_⟩ <;> rw [h] <;> norm_num [gravity]

/-- **C8 (amended).** For every track history whose two most recent
samples are separated by a zero or negative elapsed time, the
velocity/acceleration computation short-circuits to the safe default of
zero velocity, zero acceleration and the `unknown` phase (not the
assumed-gravity acceleration constant). -/
theorem C8_nonpositive_dt_short_circuits (history : List Sample)
    (t1 x1 y1 t2 x2 y2 : ℚ) (rest : List Sample)
    (hrev : history.reverse = (t1, x1, y1) :: (t2, x2, y2) :: rest)
    (hdt : t1 - t2 ≤ 0) :
    calcTraj history = (Phase.unknown, 0, 0, 0) := by
  rw [calcTraj, hrev]
  simp [hdt]

/-- Witness for C8 (amended): samples at times 1 then 0 (negative elapsed
time) yield the safe default. -/
theorem C8_nonpositive_dt_short_circuits_witness :
    calcTraj [(1, 2, 3), (0, 4, 5)] = (Phase.unknown, 0, 0, 0) :=
  C8_nonpositive_dt_short_circuits [(1, 2, 3), (0, 4, 5)] 0 4 5 1 2 3 []
    rfl (by norm_num)

/-! ### Claim C4 -/

/-- **C4.** The claim is right and the code is wrong: prediction with zero
lookahead does return the current position unchanged (first conjunct), but
with the assumed-gravity acceleration `-gravity = -490` (a sign slip for a
downward-pointing y axis), a track falling with positive downward
velocity `vy = 10` is predicted at `y' = -3.0125 < y = 1`: the predicted y
is strictly smaller, not strictly greater, than the current y. -/
theorem C4_prediction_gravity_sign_bug :
    (predictPos 7 9 (-3) 10 (-490) 0 = (7, 9)) ∧
    (0 < (calcTraj [(0, 0, 0), (1/10, 0, 1)]).2.2.1 ∧
      (calcTraj [(0, 0, 0), (1/10, 0, 1)]).2.2.2 = -gravity ∧
      (predictPos 0 1 (calcTraj [(0, 0, 0), (1/10, 0, 1)]).2.1
          (calcTraj [(0, 0, 0), (1/10, 0, 1)]).2.2.1
          (calcTraj [(0, 0, 0), (1/10, 0, 1)]).2.2.2 (3/20)).2 < 1) := by
  have h : calcTraj [(0, 0, 0), (1/10, 0, 1)] = (Phase.hover, 0, 10, -gravity) := by
    norm_num [calcTraj]
  have hceil : (⌈(-(241/80) : ℚ)⌉ : ℤ) = -3 := by
    rw [Int.ceil_eq_iff]
    norm_num
  refine ⟨by norm_num [predictPos, intTrunc], ?_, ?_, ?_⟩
  · rw [h]; norm_num
  · rw [h]
  · rw [h]
    show ((intTrunc (1 + 10 * (3/20) + 1/2 * -gravity * (3/20)^2) : ℤ) : ℚ) < 1
    rw [show (1 + 10 * (3/20) + 1/2 * -gravity * (3/20)^2 : ℚ) = -(241/80) by
      norm_num [gravity]]
    rw [intTrunc, if_neg (by norm_num), hceil]
    norm_num

/-! ### Claim C7 -/

/-- **C7.** A frame with zero detections and at least one live track still
runs the expiry sweep: the annotated output is empty and the surviving
track table is exactly the old table filtered by the staleness test, so a
track is removed on the first frame at which more than the 1-second expiry
window has elapsed since its last matched sample and never before (third
conjunct: a live track is retained if and only if `now - last ≤ 1`). -/
theorem C7_zero_detections_expiry_sweep (s : TrackerState) (now : ℚ)
    (hne : s.fruit_history ≠ []) :
    (trackerUpdate s [] now).1 = [] ∧
    (trackerUpdate s [] now).2.fruit_history
      = s.fruit_history.filter (fun p => ! staleTrack p.2 now) ∧
    ∀ tid h tl tx ty, (tid, h) ∈ s.fruit_history → h.getLast? = some (tl, tx, ty) →
      ((tid, h) ∈ (trackerUpdate s [] now).2.fruit_history ↔ now - tl ≤ 1) := by
  have hassign : assignTrackIds s.fruit_history s.next_track_id []
      = ([], [], s.next_track_id) := by
    rw [assignTrackIds, if_neg hne]
    simp
  have hupd : trackerUpdate s [] now
      = ([], { fruit_history := cleanOldTracks s.fruit_history now,
               next_track_id := s.next_track_id, max_history := s.max_history }) := by
    rw [trackerUpdate, hassign]
    simp [updateLoop]
  refine ⟨by rw [hupd], by rw [hupd]; rfl, ?_⟩
  intro tid h tl tx ty hmem hlast
  rw [hupd]
  show (tid, h) ∈ cleanOldTracks s.fruit_history now ↔ now - tl ≤ 1
  rw [cleanOldTracks]
  constructor
  · intro hin
    have := (List.mem_filter.mp hin).2
    rw [staleTrack, hlast] at this
    simpa using this
  · intro hle
    refine List.mem_filter.mpr ⟨hmem, ?_⟩
    rw [staleTrack, hlast]
    simpa using hle

/-- Witness for C7: a single track last seen at time 0 survives a
zero-detection frame at time 1/2 and is removed at time 5. -/
theorem C7_zero_detections_expiry_sweep_witness :
    (trackerUpdate ⟨[(0, [(0, 20, 30)])], 1, 10⟩ [] (1/2)).2.fruit_history
        = [(0, [(0, 20, 30)])] ∧
    (trackerUpdate ⟨[(0, [(0, 20, 30)])], 1, 10⟩ [] 5).2.fruit_history = [] := by
  constructor
  · rw [(C7_zero_detections_expiry_sweep ⟨[(0, [(0, 20, 30)])], 1, 10⟩ (1/2)
        (by simp)).2.1]
    norm_num [staleTrack]
  · rw [(C7_zero_detections_expiry_sweep ⟨[(0, [(0, 20, 30)])], 1, 10⟩ 5
        (by simp)).2.1]
    norm_num [staleTrack]

/-! ### Claim C3 -/

lemma freshPairs_snd_mem : ∀ (l : List ℕ) (n : ℕ) (p : ℕ × ℕ),
    p ∈ freshPairs n l → p.2 ∈ l := by
  intro l
  induction l with
  | nil => intro n p hp; simp [freshPairs] at hp
  | cons j rest ih =>
      intro n p hp
      rw [freshPairs] at hp
      rcases List.mem_cons.mp hp with rfl | hp
      · exact List.mem_cons_self _ _
      · exact List.mem_cons_of_mem _ (ih (n + 1) p hp)

/-- Counterexample for C3 as stated: two tracks whose last positions
`(1,2)` and `(11,2)` are both within the 50-pixel threshold of the single
detection `(6,2)` each select that detection — the matched pairs are
`[(0,0), (1,0)]`, so detection index 0 is consumed by both track 0 and
track 1: matched detections are only removed from the new-track pool, not
from the matching pool. -/
theorem C3_counterexample :
    assignTrackIds [(0, [(0, 1, 2)]), (1, [(0, 11, 2)])] 2 [(6, 2)]
        = ([(0, 0), (1, 0)], [], 2) ∧
    ¬ ((assignTrackIds [(0, [(0, 1, 2)]), (1, [(0, 11, 2)])] 2
        [(6, 2)]).1.map Prod.snd).Nodup := by
  have h1 : distance ((1 : ℚ), (2 : ℚ)) ((6 : ℚ), (2 : ℚ)) < (50 : ℝ) := by
    have := (distance_lt_iff ((1 : ℚ), (2 : ℚ)) ((6 : ℚ), (2 : ℚ))
      (c := 50) (by norm_num)).mpr (by norm_num [dist2])
    exact_mod_cast this
  have h2 : distance ((11 : ℚ), (2 : ℚ)) ((6 : ℚ), (2 : ℚ)) < (50 : ℝ) := by
    have := (distance_lt_iff ((11 : ℚ), (2 : ℚ)) ((6 : ℚ), (2 : ℚ))
      (c := 50) (by norm_num)).mpr (by norm_num [dist2])
    exact_mod_cast this
  have hmain : assignTrackIds [(0, [(0, 1, 2)]), (1, [(0, 11, 2)])] 2 [(6, 2)]
      = ([(0, 0), (1, 0)], [], 2) := by
    rw [assignTrackIds, if_neg (by simp), if_neg (by simp)]
    simp [assignMatches, costRow, argminAux, h1, h2, freshPairs]
  refine ⟨hmain, ?_⟩
  rw [hmain]
  simp

/-- **C3 (amended).** In every association pass, tracks are processed in
table order and each selects its nearest detection among all of the
frame's detections (not only the still-unmatched ones), so one detection
may be consumed by several tracks; but a detection matched to any track
is removed from the new-track candidate pool: no freshly spawned track
uses the index of a matched detection. -/
theorem C3_matched_detection_never_spawns (hist : List (ℕ × List Sample))
    (nextId : ℕ) (fruits : List Point) :
    ∀ p ∈ (assignTrackIds hist nextId fruits).2.1,
      p.2 ∉ ((assignTrackIds hist nextId fruits).1).map Prod.snd := by
  intro p hp
  by_cases h1 : hist = []
  · simp [assignTrackIds, h1]
  · by_cases h2 : fruits = []
    · simp [assignTrackIds, h1, h2] at hp
    · simp only [assignTrackIds, if_neg h1, if_neg h2] at hp ⊢
      have hj := freshPairs_snd_mem _ _ _ hp
      have hfil := List.mem_filter.mp hj
      simpa using hfil.2

/-- Witness for C3 (amended): on an empty track table the single detection
spawns a fresh track, whose index is indeed absent from the (empty) list
of matched indices. -/
theorem C3_matched_detection_never_spawns_witness :
    ((0 : ℕ), (0 : ℕ)).2
      ∉ ((assignTrackIds [] 0 [((1 : ℚ), (1 : ℚ))]).1).map Prod.snd :=
  C3_matched_detection_never_spawns [] 0 [(1, 1)] (0, 0)
    (by simp [assignTrackIds, freshPairs, List.range_succ])

/-! ### Claim C9 -/

lemma argminAux_get?_eq {α : Type _} [LinearOrder α] :
    ∀ (l : List α) (i : ℕ) (v : α), argminAux l = some (i, v) → l.get? i = some v := by
  intro l
  induction l with
  | nil => intro i v h; simp [argminAux] at h
  | cons a rest ih =>
      intro i v h
      rw [argminAux] at h
      cases hr : argminAux rest with
      | none =>
          rw [hr] at h
          simp only [Option.some.injEq, Prod.mk.injEq] at h
          obtain ⟨rfl, rfl⟩ := h
          rfl
      | some jw =>
          obtain ⟨j, w⟩ := jw
          rw [hr] at h
          dsimp only at h
          by_cases hle : a ≤ w
          · rw [if_pos hle] at h
            simp only [Option.some.injEq, Prod.mk.injEq] at h
            obtain ⟨rfl, rfl⟩ := h
            rfl
          · rw [if_neg hle] at h
            simp only [Option.some.injEq, Prod.mk.injEq] at h
            obtain ⟨rfl, rfl⟩ := h
            simpa using ih j w hr

lemma costRow_eq (h : List Sample) (fruits : List Point) (lt lx ly : ℚ)
    (hlast : h.getLast? = some (lt, lx, ly)) :
    costRow h fruits = fruits.map (fun c => distance (lx, ly) c) := by
  rw [costRow, hlast]

lemma distance_not_lt_of_far (p q : Point) (hfar : 2500 ≤ dist2 p q) :
    ¬ distance p q < (50 : ℝ) := by
  intro hlt
  have h50 : ((50 : ℚ) : ℝ) = (50 : ℝ) := by norm_num
  rw [← h50] at hlt
  have := (distance_lt_iff p q (c := 50) (by norm_num)).mp hlt
  norm_num at this
  exact absurd this (not_lt.mpr hfar)

lemma distance_lt_of_close (p q : Point) (hclose : dist2 p q < 2500) :
    distance p q < (50 : ℝ) := by
  have h50 : ((50 : ℚ) : ℝ) = (50 : ℝ) := by norm_num
  rw [← h50]
  exact (distance_lt_iff p q (c := 50) (by norm_num)).mpr (by norm_num [hclose])

/-- Counterexample for C9 as stated: the single track (last position
`(1,2)`) is the only track within the 50-pixel threshold of the detection
`(11,2)` at index 1 (distance 10), but a second detection `(2,2)` is
closer, so the track consumes index 0 and the detection at index 1 spawns
the brand-new track id 1 instead of extending track 0. -/
theorem C9_counterexample :
    dist2 (1, 2) (11, 2) < 2500 ∧
    assignTrackIds [(0, [(0, 1, 2)])] 1 [(2, 2), (11, 2)]
      = ([(0, 0)], [(1, 1)], 2) := by
  have hle : distance ((1 : ℚ), (2 : ℚ)) ((2 : ℚ), (2 : ℚ))
      ≤ distance ((1 : ℚ), (2 : ℚ)) ((11 : ℚ), (2 : ℚ)) := by
    rw [distance, distance]
    apply Real.sqrt_le_sqrt
    have : dist2 ((1 : ℚ), (2 : ℚ)) ((2 : ℚ), (2 : ℚ))
        ≤ dist2 ((1 : ℚ), (2 : ℚ)) ((11 : ℚ), (2 : ℚ)) := by norm_num [dist2]
    exact_mod_cast this
  have hlt : distance ((1 : ℚ), (2 : ℚ)) ((2 : ℚ), (2 : ℚ)) < (50 : ℝ) :=
    distance_lt_of_close _ _ (by norm_num [dist2])
  constructor
  · norm_num [dist2]
  · rw [assignTrackIds, if_neg (by simp), if_neg (by simp)]
    simp [assignMatches, costRow, argminAux, hle, hlt, freshPairs, List.range_succ]

/-- **C9 (amended).** If a detection lies within the association threshold
of exactly one live track's last position, all live tracks have non-empty
histories, and the detection is the one the track selects as nearest
(first-minimal cost row entry), then the association pass matches that
detection to that track (and to no other), no freshly spawned track takes
its index, and the tracker's output contains it annotated with the
preserved track id. Without the "selected as nearest" condition the claim
fails (see the counterexample): a closer competing detection diverts the
track and the detection spawns a new id. -/
theorem C9_nearest_detection_extends_track (hist : List (ℕ × List Sample))
    (nextId : ℕ) (fruits : List Point) (j : ℕ) (d : Point) (tid : ℕ)
    (h : List Sample) (lt lx ly : ℚ)
    (hf : fruits.get? j = some d)
    (hmem : (tid, h) ∈ hist)
    (hlast : h.getLast? = some (lt, lx, ly))
    (hclose : dist2 (lx, ly) d < 2500)
    (hfar : ∀ tid' h' lt' lx' ly', (tid', h') ∈ hist → (tid', h') ≠ (tid, h) →
      h'.getLast? = some (lt', lx', ly') → 2500 ≤ dist2 (lx', ly') d)
    (hnonempty : ∀ q ∈ hist, q.2 ≠ [])
    (hnearest : argminAux (costRow h fruits) = some (j, distance (lx, ly) d)) :
    (tid, j) ∈ (assignTrackIds hist nextId fruits).1 ∧
    (∀ q ∈ (assignTrackIds hist nextId fruits).1, q.2 = j → q.1 = tid) ∧
    (∀ p ∈ (assignTrackIds hist nextId fruits).2.1, p.2 ≠ j) ∧
    ∀ now maxH, ∃ out ∈ (trackerUpdate ⟨hist, nextId, maxH⟩ fruits now).1,
      out.track_id = tid ∧ out.center = d := by
  have hhist : hist ≠ [] := List.ne_nil_of_mem hmem
  have hfruits : fruits ≠ [] := by
    intro hemp
    rw [hemp] at hf
    simp at hf
  have hassign : assignTrackIds hist nextId fruits
      = (assignMatches hist fruits,
         freshPairs nextId ((List.range fruits.length).filter
           (fun j => j ∉ (assignMatches hist fruits).map Prod.snd)),
         nextId + ((List.range fruits.length).filter
           (fun j => j ∉ (assignMatches hist fruits).map Prod.snd)).length) := by
    rw [assignTrackIds, if_neg hhist, if_neg hfruits]
  have hmatched : (tid, j) ∈ assignMatches hist fruits := by
    rw [assignMatches]
    refine List.mem_filterMap.mpr ⟨(tid, h), hmem, ?_⟩
    rw [hnearest]
    dsimp only
    rw [if_pos (distance_lt_of_close _ _ hclose)]
  have huniq : ∀ q ∈ assignMatches hist fruits, q.2 = j → q.1 = tid := by
    intro q hq hqj
    rw [assignMatches] at hq
    obtain ⟨⟨tid', h'⟩, hmem', hfq⟩ := List.mem_filterMap.mp hq
    cases hr : argminAux (costRow h' fruits) with
    | none => rw [hr] at hfq; simp at hfq
    | some jv =>
        obtain ⟨j'', v''⟩ := jv
        rw [hr] at hfq
        dsimp only at hfq
        by_cases hv : v'' < (50 : ℝ)
        · rw [if_pos hv] at hfq
          simp only [Option.some.injEq] at hfq
          rw [← hfq] at hqj ⊢
          simp only at hqj ⊢
          by_cases heq : (tid', h') = (tid, h)
          · exact congrArg Prod.fst heq
          · exfalso
            have hne' : h' ≠ [] := hnonempty (tid', h') hmem'
            obtain ⟨lp', hl'⟩ : ∃ a, h'.getLast? = some a := by
              cases hl : h'.getLast? with
              | none => exact absurd (List.getLast?_eq_none_iff.mp hl) hne'
              | some a => exact ⟨a, rfl⟩
            obtain ⟨lt', lx', ly'⟩ := lp'
            have hrow := costRow_eq h' fruits lt' lx' ly' hl'
            have hget := argminAux_get?_eq _ _ _ hr
            rw [hrow] at hget
            rw [hqj] at hget
            rw [List.get?_map, hf] at hget
            simp only [Option.map_some', Option.some.injEq] at hget
            have hfarv := hfar tid' h' lt' lx' ly' hmem' heq hl'
            rw [← hget] at hv
            exact distance_not_lt_of_far _ _ hfarv hv
        · rw [if_neg hv] at hfq
          simp at hfq
  refine ⟨?_, ?_, ?_, ?_⟩
  · rw [hassign]; exact hmatched
  · rw [hassign]; exact huniq
  · rw [hassign]
    intro p hp
    have hj := freshPairs_snd_mem _ _ _ hp
    have hfil := List.mem_filter.mp hj
    intro hpj
    have : p.2 ∉ (assignMatches hist fruits).map Prod.snd := by simpa using hfil.2
    exact this (hpj ▸ List.mem_map.mpr ⟨(tid, j), hmatched, rfl⟩)
  · intro now maxH
    have hout : ∀ (assigned : List (ℕ × ℕ)) (histT : List (ℕ × List Sample)),
        (tid, j) ∈ assigned →
        ∃ out ∈ (updateLoop maxH fruits now assigned histT).1,
          out.track_id = tid ∧ out.center = d := by
      intro assigned
      induction assigned with
      | nil => intro histT hin; simp at hin
      | cons p rest ih =>
          intro histT hin
          rcases List.mem_cons.mp hin with rfl | hin'
          · rw [updateLoop, hf]
            dsimp only
            refine ⟨_, List.mem_cons_self _ _, ?_, ?_⟩
            · split <;> rfl
            · split <;> rfl
          · obtain ⟨ptid, pj⟩ := p
            rw [updateLoop]
            cases hg : fruits.get? pj with
            | none => exact ih _ hin'
            | some c =>
                obtain ⟨out, hout', hprop⟩ :=
                  ih (histPush maxH histT ptid (now, c.1, c.2)) hin'
                exact ⟨out, List.mem_cons_of_mem _ hout', hprop⟩
    have hin : (tid, j) ∈ (assignTrackIds hist nextId fruits).1
        ++ (assignTrackIds hist nextId fruits).2.1 :=
      List.mem_append_left _ (by rw [hassign]; exact hmatched)
    obtain ⟨out, ho, hp⟩ := hout _ hist hin
    exact ⟨out, ho, hp⟩

/-- Witness for C9 (amended): one track with last position `(1,2)`, one
detection `(4,6)` at distance 5 — the association keeps track id 3 and the
output carries the detection under that id. -/
theorem C9_nearest_detection_extends_track_witness :
    ((3 : ℕ), (0 : ℕ)) ∈ (assignTrackIds [(3, [(0, 1, 2)])] 7 [(4, 6)]).1 ∧
    ∃ out ∈ (trackerUpdate ⟨[(3, [(0, 1, 2)])], 7, 10⟩ [(4, 6)] 1).1,
      out.track_id = 3 ∧ out.center = ((4 : ℚ), (6 : ℚ)) := by
  have hthm := C9_nearest_detection_extends_track [(3, [(0, 1, 2)])] 7 [(4, 6)]
    0 (4, 6) 3 [(0, 1, 2)] 0 1 2
    rfl (by simp) rfl (by norm_num [dist2])
    (by intro tid' h' lt' lx' ly' hmem' hne' hl'
        simp at hmem'
        exact absurd (by simp [hmem'.1, hmem'.2]) hne')
    (by simp)
    (by simp [costRow, argminAux])
  exact ⟨hthm.1, hthm.2.2.2 1 10⟩

/-! ### Claim C5 -/

/-- A fruit's fingerprint qualifies as pomegranate behavior
(`real_bot.py` line 134): persisted more than 1 second with at least 2
recorded slices. -/
def qualifies (pending : Pending) (t : ℚ) (f : Point) : Prop :=
  ∃ fc, lookupPending pending f = some fc ∧ 1 < t - fc.1 ∧ 2 ≤ fc.2

lemma checkPomLoop_active (pending : Pending) (t : ℚ) :
    ∀ (fruits : List Point) (e : ℚ),
      checkPomLoop pending t fruits true e = (true, true, e) := by
  intro fruits
  induction fruits with
  | nil => intro e; rfl
  | cons f rest ih =>
      intro e
      rw [checkPomLoop]
      cases lookupPending pending f with
      | none => exact ih e
      | some fc =>
          dsimp only
          split
          · rfl
          · exact ih e

lemma checkPomLoop_no_qualifier (pending : Pending) (t : ℚ) :
    ∀ (fruits : List Point) (r : Bool) (e : ℚ),
      (∀ f ∈ fruits, ¬ qualifies pending t f) →
      checkPomLoop pending t fruits r e = (r, r, e) := by
  intro fruits
  induction fruits with
  | nil => intro r e _; rfl
  | cons f rest ih =>
      intro r e hno
      rw [checkPomLoop]
      cases hl : lookupPending pending f with
      | none => exact ih r e (fun f' hf' => hno f' (List.mem_cons_of_mem _ hf'))
      | some fc =>
          dsimp only
          rw [if_neg ?_]
          · exact ih r e (fun f' hf' => hno f' (List.mem_cons_of_mem _ hf'))
          · intro hcond
            exact hno f (List.mem_cons_self _ _) ⟨fc, hl, hcond⟩

lemma checkPomLoop_qualifier_inactive (pending : Pending) (t : ℚ) :
    ∀ (fruits : List Point) (e : ℚ),
      (∃ f ∈ fruits, qualifies pending t f) →
      checkPomLoop pending t fruits false e = (true, true, t + 3) := by
  intro fruits
  induction fruits with
  | nil => intro e h; simp at h
  | cons f rest ih =>
      intro e hex
      rw [checkPomLoop]
      cases hl : lookupPending pending f with
      | none =>
          refine ih e ?_
          rcases hex with ⟨f', hf', hq⟩
          rcases List.mem_cons.mp hf' with rfl | hf'
          · rcases hq with ⟨fc, hfc, _⟩
            rw [hl] at hfc
            exact absurd hfc (by simp)
          · exact ⟨f', hf', hq⟩
      | some fc =>
          dsimp only
          by_cases hcond : 1 < t - fc.1 ∧ 2 ≤ fc.2
          · rw [if_pos hcond]
            rfl
          · rw [if_neg hcond]
            refine ih e ?_
            rcases hex with ⟨f', hf', hq⟩
            rcases List.mem_cons.mp hf' with rfl | hf'
            · rcases hq with ⟨fc', hfc', hq'⟩
              rw [hl] at hfc'
              simp only [Option.some.injEq] at hfc'
              exact absurd (hfc' ▸ hq') hcond
            · exact ⟨f', hf', hq⟩

/-- Counterexample for C5 as stated: rapid mode is active with expiry 2;
at time 2.5 (past the expiry) the qualifying fingerprint `(5,5)` (first
seen at 0, slice count 2) is still observed. The claim says the mode
deactivates at the expiry regardless; the code deactivates and then
immediately re-activates in the same frame, ending the frame active with
the fresh expiry `2.5 + 3 = 5.5`. -/
theorem C5_counterexample :
    check_pomegranate_behavior [((5, 5), (0, 2))] true 2 [(5, 5)] (5/2)
      = (true, true, 11/2) := by
  have hl : lookupPending [((5, 5), (0, 2))] ((5 : ℚ), (5 : ℚ)) = some (0, 2) := by
    simp [lookupPending]
  rw [check_pomegranate_behavior, if_pos (by norm_num)]
  rw [checkPomLoop, hl]
  dsimp only
  rw [if_pos (by norm_num)]
  norm_num

/-- **C5 (amended).** Once rapid mode is active it never deactivates
before its expiry: while `t ≤ expiry` the frame leaves it active with the
same expiry. When the current time passes the expiry, the mode
deactivates — unless a qualifying fingerprint (persisted longer than 1 s
with slice count ≥ 2) is observed in that same frame, in which case the
mode is immediately re-activated with the new expiry `t + 3` instead of
staying down. -/
theorem C5_mode_deactivation (pending : Pending) (rapid : Bool) (endTime : ℚ)
    (fruits : List Point) (t : ℚ) :
    (rapid = true → t ≤ endTime →
      check_pomegranate_behavior pending rapid endTime fruits t
        = (true, true, endTime)) ∧
    (endTime < t → (∀ f ∈ fruits, ¬ qualifies pending t f) →
      check_pomegranate_behavior pending rapid endTime fruits t
        = (false, false, endTime)) ∧
    (endTime < t → (∃ f ∈ fruits, qualifies pending t f) →
      check_pomegranate_behavior pending rapid endTime fruits t
        = (true, true, t + 3)) := by
  refine ⟨?_, ?_, ?_⟩
  · intro hr hle
    subst hr
    rw [check_pomegranate_behavior, if_neg (by simp [not_lt.mpr hle])]
    exact checkPomLoop_active pending t fruits endTime
  · intro hlt hno
    have hr1 : (if rapid ∧ endTime < t then false else rapid) = false := by
      cases rapid
      · simp
      · simp [hlt]
    rw [check_pomegranate_behavior, hr1]
    exact checkPomLoop_no_qualifier pending t fruits false endTime hno
  · intro hlt hex
    have hr1 : (if rapid ∧ endTime < t then false else rapid) = false := by
      cases rapid
      · simp
      · simp [hlt]
    rw [check_pomegranate_behavior, hr1]
    exact checkPomLoop_qualifier_inactive pending t fruits endTime hex

/-- Witness for C5 (amended): inactive mode, expiry already passed, and a
qualifying fingerprint observed — the frame ends active with expiry 5. -/
theorem C5_mode_deactivation_witness :
    check_pomegranate_behavior [((1, 2), (0, 3))] false 0 [(1, 2)] 2
      = (true, true, 5) := by
  have := (C5_mode_deactivation [((1, 2), (0, 3))] false 0 [(1, 2)] 2).2.2
    (by norm_num)
    ⟨(1, 2), by simp, ⟨(0, 3), by simp [lookupPending], by norm_num, by norm_num⟩⟩
  rw [this]
  norm_num

/-! ### Claims C1 and C6: engine frame lemmas -/

lemma find_best_gate (fruits : List TFruit) (bombs : List Point) (t last : ℚ)
    (h : fruits = [] ∨ t - last < cooldown) :
    find_best_swipe_target fruits bombs t last = (none, 0) := by
  rw [find_best_swipe_target, if_pos h]

lemma botFrame_cases (s : BotState) (fruits : List TFruit) (bombs : List Point)
    (t : ℚ) :
    ((botFrame s fruits bombs t).1 = Action.noAction ∧
     (botFrame s fruits bombs t).2.last_swipe_time = s.last_swipe_time ∧
     (botFrame s fruits bombs t).2.potential_pomegranates
       = s.potential_pomegranates) ∨
    (∃ (target : TFruit) (sx ex y dur : ℚ) (r : Bool),
      (botFrame s fruits bombs t).1 = Action.swipe sx ex y dur r ∧
      (botFrame s fruits bombs t).2.last_swipe_time = t ∧
      (botFrame s fruits bombs t).2.potential_pomegranates
        = trackPomCandidate s.potential_pomegranates target.center t ∧
      cooldown ≤ t - s.last_swipe_time) := by
  by_cases hg : fruits = [] ∨ t - s.last_swipe_time < cooldown
  · left
    have hfind := find_best_gate fruits bombs t s.last_swipe_time hg
    simp [botFrame, hfind]
  · push_neg at hg
    rcases hfb : (find_best_swipe_target fruits bombs t s.last_swipe_time).1
      with _ | target
    · left
      simp [botFrame, hfb]
    · by_cases hsc :
        ((2 : ℝ)⁻¹) < (find_best_swipe_target fruits bombs t s.last_swipe_time).2
      · right
        refine ⟨target,
          (execute_swipe_geometry target.center.1 target.center.2 bombs).1,
          (execute_swipe_geometry target.center.1 target.center.2 bombs).2.1,
          (execute_swipe_geometry target.center.1 target.center.2 bombs).2.2,
          swipe_duration * (if (check_pomegranate_behavior s.potential_pomegranates
            s.rapid_mode s.rapid_mode_end_time (fruits.map (fun f => f.center)) t).1
            then 4/5 else 1),
          (check_pomegranate_behavior s.potential_pomegranates s.rapid_mode
            s.rapid_mode_end_time (fruits.map (fun f => f.center)) t).1,
          ?_, ?_, ?_, hg.2⟩
        · simp [botFrame, hfb, hsc]
        · simp [botFrame, hfb, hsc]
        · simp [botFrame, hfb, hsc]
      · left
        simp [botFrame, hfb, hsc]

lemma trackPomCandidate_not_stale (pending : Pending) (fp : Point) (t : ℚ) :
    ∀ e ∈ trackPomCandidate pending fp t, t - e.2.1 ≤ 2 := by
  intro e he
  have := (List.mem_filter.mp he).2
  simpa using this

lemma runSwipeTimes_sep (frames : List FrameIn) :
    ∀ s : BotState,
      (∀ x, (runSwipeTimes s frames).head? = some x →
        s.last_swipe_time + cooldown ≤ x) ∧
      List.Chain' (fun a b => a + cooldown ≤ b) (runSwipeTimes s frames) := by
  induction frames with
  | nil =>
      intro s
      constructor
      · intro x hx; simp [runSwipeTimes] at hx
      · simp [runSwipeTimes]
  | cons fr rest ih =>
      intro s
      rcases botFrame_cases s fr.fruits fr.bombs fr.t with
        ⟨h1, h2, _⟩ | ⟨target, sx, ex, y, dur, r, h1, h2, _, h4⟩
      · have hred : runSwipeTimes s (fr :: rest)
            = runSwipeTimes ((botFrame s fr.fruits fr.bombs fr.t).2) rest := by
          simp only [runSwipeTimes, h1]
        obtain ⟨ihh, ihc⟩ := ih ((botFrame s fr.fruits fr.bombs fr.t).2)
        constructor
        · intro x hx
          rw [hred] at hx
          have := ihh x hx
          rwa [h2] at this
        · rw [hred]; exact ihc
      · have hred : runSwipeTimes s (fr :: rest)
            = fr.t :: runSwipeTimes ((botFrame s fr.fruits fr.bombs fr.t).2) rest := by
          simp only [runSwipeTimes, h1]
        obtain ⟨ihh, ihc⟩ := ih ((botFrame s fr.fruits fr.bombs fr.t).2)
        constructor
        · intro x hx
          rw [hred] at hx
          simp only [List.head?_cons, Option.some.injEq] at hx
          subst hx
          linarith [h4]
        · rw [hred]
          rw [List.chain'_cons']
          constructor
          · intro x hx
            have := ihh x hx
            rw [h2] at this
            linarith [this]
          · exact ihc

/-! ### Claim C1 -/

/-- **C1.** The cooldown gate is a hard invariant: (i) whenever
`now - last_action_time < cooldown` the frame returns `NoAction` (for
every fruit and bomb list — the targets are never consulted) and leaves
the last-action time unchanged; (ii) a frame that emits a `Swipe` records
`last_swipe_time = now` and only fires when at least the cooldown has
elapsed; (iii) a `NoAction` frame never touches the last-action time; and
(iv) over any sequence of per-frame inputs, any two emitted swipe
timestamps are at least the cooldown apart. -/
theorem C1_min_action_interval (s : BotState) (fruits : List TFruit)
    (bombs : List Point) (t : ℚ) :
    (t - s.last_swipe_time < cooldown →
      (botFrame s fruits bombs t).1 = Action.noAction ∧
      (botFrame s fruits bombs t).2.last_swipe_time = s.last_swipe_time) ∧
    (∀ sx ex y dur r,
      (botFrame s fruits bombs t).1 = Action.swipe sx ex y dur r →
        (botFrame s fruits bombs t).2.last_swipe_time = t ∧
        cooldown ≤ t - s.last_swipe_time) ∧
    ((botFrame s fruits bombs t).1 = Action.noAction →
      (botFrame s fruits bombs t).2.last_swipe_time = s.last_swipe_time) ∧
    (∀ (s' : BotState) (frames : List FrameIn),
      List.Pairwise (fun a b => a + cooldown ≤ b) (runSwipeTimes s' frames)) := by
  refine ⟨?_, ?_, ?_, ?_⟩
  · intro hcool
    have hfind := find_best_gate fruits bombs t s.last_swipe_time (Or.inr hcool)
    constructor
    · simp [botFrame, hfind]
    · simp [botFrame, hfind]
  · intro sx ex y dur r hsw
    rcases botFrame_cases s fruits bombs t with
      ⟨h1, _, _⟩ | ⟨target, sx', ex', y', dur', r', h1, h2, _, h4⟩
    · rw [h1] at hsw; exact absurd hsw (by simp)
    · exact ⟨h2, h4⟩
  · intro hna
    rcases botFrame_cases s fruits bombs t with
      ⟨_, h2, _⟩ | ⟨target, sx', ex', y', dur', r', h1, _, _, _⟩
    · exact h2
    · rw [h1] at hna; exact absurd hna (by simp)
  · intro s' frames
    haveI : IsTrans ℚ (fun a b => a + cooldown ≤ b) := by
      constructor
      intro a b c hab hbc
      have hck : (0 : ℚ) ≤ cooldown := by norm_num [cooldown]
      have hab' : a + cooldown ≤ b := hab
      have hbc' : b + cooldown ≤ c := hbc
      show a + cooldown ≤ c
      linarith
    exact List.chain'_iff_pairwise.mp (runSwipeTimes_sep frames s').2

/-- Witness for C1: at time 1/20 with last action at 0 (cooldown 1/10 not
yet elapsed) the frame yields `NoAction` and the last-action time is
untouched. -/
theorem C1_min_action_interval_witness :
    (botFrame ⟨0, [], false, 0⟩ [⟨(400, 400), 1⟩] [] (1/20)).1 = Action.noAction ∧
    (botFrame ⟨0, [], false, 0⟩ [⟨(400, 400), 1⟩] [] (1/20)).2.last_swipe_time = 0 :=
  (C1_min_action_interval ⟨0, [], false, 0⟩ [⟨(400, 400), 1⟩] [] (1/20)).1
    (by norm_num [cooldown])

/-! ### Claim C6 -/

/-- A concrete frame on which the engine emits a swipe: a single fruit at
`(486, 444)` (within the 40–70 % height window of the 808-pixel frame),
no bombs, time 1, last action at 0. The fingerprint table picks up the
swiped fruit. -/
lemma botFrame_swipe_example :
    botFrame ⟨0, [], false, 0⟩ [⟨(486, 444), 1⟩] [] 1
      = (Action.swipe 1339 1459 615 (1/50) false,
         ⟨1, [((486, 444), (1, 1))], false, 0⟩) := by
  have habs : |(444 : ℚ) / frame_height - 11/20| = 1/2020 := by
    rw [show (444 : ℚ) / frame_height - 11/20 = -(1/2020) by
      norm_num [frame_height, CAPTURE_REGION]]
    rw [abs_neg]
    exact abs_of_nonneg (by norm_num)
  have hc1 : ¬¬((2/5 : ℚ) ≤ 444 / frame_height ∧ (444 : ℚ) / frame_height ≤ 7/10) :=
    not_not_intro (by constructor <;> norm_num [frame_height, CAPTURE_REGION])
  have hsafety : calculate_safety_score (486, 444) [] = 1 := by
    rw [calculate_safety_score, if_pos rfl]
  have hpos : (-1 : ℝ) < 1 * ((1 : ℚ) : ℝ)
      * ((1 - |(444 : ℚ) / frame_height - 11/20| : ℚ) : ℝ) := by
    rw [habs]
    push_cast
    norm_num
  have hfind : find_best_swipe_target [⟨(486, 444), 1⟩] [] 1 0
      = (some ⟨(486, 444), 1⟩,
         (1 : ℝ) * ((1 : ℚ) : ℝ)
           * ((1 - |(444 : ℚ) / frame_height - 11/20| : ℚ) : ℝ)) := by
    rw [find_best_swipe_target, if_neg ?gate]
    case gate =>
      rintro (h | h)
      · exact absurd h (by simp)
      · norm_num [cooldown] at h
    rw [findLoop]
    dsimp only
    rw [if_neg hc1, hsafety, if_neg (by norm_num : ¬ ((1 : ℝ) < 3/5))]
    rw [if_pos (show is_swipe_safe (486, 444) [] = true from rfl)]
    rw [if_pos hpos]
    rw [findLoop]
  have hpc : check_pomegranate_behavior [] false 0
      (List.map (fun f => f.center) [(⟨(486, 444), 1⟩ : TFruit)]) 1
      = (false, false, 0) := by
    simp [check_pomegranate_behavior, checkPomLoop, lookupPending]
  have hhalf : (1/2 : ℝ) < 1 * ((1 : ℚ) : ℝ)
      * ((1 - |(444 : ℚ) / frame_height - 11/20| : ℚ) : ℝ) := by
    rw [habs]
    push_cast
    norm_num
  rw [botFrame]
  rw [hfind, hpc]
  dsimp only
  rw [if_pos hhalf]
  rw [Prod.mk.injEq]
  constructor
  · show Action.swipe (execute_swipe_geometry 486 444 []).1
      (execute_swipe_geometry 486 444 []).2.1 (execute_swipe_geometry 486 444 []).2.2
      (swipe_duration * (if (false : Bool) then 4/5 else 1)) false
      = Action.swipe 1339 1459 615 (1/50) false
    have hg : execute_swipe_geometry 486 444 [] = (1339, 1459, 615) := by
      rw [execute_swipe_geometry, adjust_swipe_for_bombs]
      norm_num [swipe_length, frame_width, frame_height, CAPTURE_REGION, min_def, max_def]
    rw [hg]
    norm_num [swipe_duration]
  · show (⟨1, trackPomCandidate [] (486, 444) 1, false, 0⟩ : BotState)
      = ⟨1, [((486, 444), (1, 1))], false, 0⟩
    have ht : trackPomCandidate [] (486, 444) 1 = [((486, 444), (1, 1))] := by
      rw [trackPomCandidate]
      simp [lookupPending]
    rw [ht]

/-- Counterexample for C6 as stated: at time 5, the fingerprint entry
first seen at 0 is 5 seconds old — older than the 2-second eviction
window — yet a frame with no fruits (hence no swipe) leaves the table
untouched: the purge only runs inside `track_pomegranate_candidate`,
which `execute_swipe` alone calls, not on every frame. -/
theorem C6_counterexample :
    (botFrame ⟨0, [((1, 1), (0, 1))], false, 0⟩ [] [] 5).1 = Action.noAction ∧
    (botFrame ⟨0, [((1, 1), (0, 1))], false, 0⟩ [] [] 5).2.potential_pomegranates
      = [((1, 1), (0, 1))] ∧
    (2 : ℚ) < 5 - 0 := by
  have hfind := find_best_gate [] [] 5 0 (Or.inl rfl)
  refine ⟨?_, ?_, by norm_num⟩ <;> simp [botFrame, hfind]

/-- **C6 (amended).** The stale-fingerprint purge runs exactly on the
frames that emit a swipe, not on every frame: a `NoAction` frame leaves
`potential_pomegranates` untouched (even when entries are stale), while on
a swipe frame every surviving entry is at most 2 seconds old (by first
recorded time), regardless of the rapid-mode state. -/
theorem C6_stale_purge_only_on_swipe (s : BotState) (fruits : List TFruit)
    (bombs : List Point) (t : ℚ) :
    ((botFrame s fruits bombs t).1 = Action.noAction →
      (botFrame s fruits bombs t).2.potential_pomegranates
        = s.potential_pomegranates) ∧
    (∀ sx ex y dur r, (botFrame s fruits bombs t).1 = Action.swipe sx ex y dur r →
      ∀ e ∈ (botFrame s fruits bombs t).2.potential_pomegranates,
        t - e.2.1 ≤ 2) := by
  constructor
  · intro hna
    rcases botFrame_cases s fruits bombs t with
      ⟨_, _, h3⟩ | ⟨target, sx', ex', y', dur', r', h1, _, _, _⟩
    · exact h3
    · rw [h1] at hna; exact absurd hna (by simp)
  · intro sx ex y dur r hsw e he
    rcases botFrame_cases s fruits bombs t with
      ⟨h1, _, _⟩ | ⟨target, sx', ex', y', dur', r', h1, _, h3, _⟩
    · rw [h1] at hsw; exact absurd hsw (by simp)
    · rw [h3] at he
      exact trackPomCandidate_not_stale _ _ _ e he

/-- Witness for C6 (amended): the swipe frame of `botFrame_swipe_example`
leaves only the fresh entry `((486,444), (1,1))`, which is 0 seconds
old. -/
theorem C6_stale_purge_only_on_swipe_witness :
    ∀ e ∈ (botFrame ⟨0, [], false, 0⟩ [⟨(486, 444), 1⟩] [] 1).2.potential_pomegranates,
      (1 : ℚ) - e.2.1 ≤ 2 :=
  (C6_stale_purge_only_on_swipe ⟨0, [], false, 0⟩ [⟨(486, 444), 1⟩] [] 1).2
    1339 1459 615 (1/50) false
    (by rw [botFrame_swipe_example])

end FruitNinja
